import Mathlib

/-!
Shallow embedding of `src/server.js` (link-scanner): URL normalization,
the per-hop transport wrapper `tryFetch`, the block-page signature
detector `detectBlock`, and the `/api/scan` probe orchestrator (bounded
redirect-chase loop, HEAD/GET fallback, verdict scoring).

The HTTP transport itself and WHATWG URL parsing are external
capabilities; they are modelled as parameters:
  * `oracle : Nat → Transport` gives the raw outcome of the k-th network
    request made during a probe (requests happen strictly sequentially);
  * `parse : String → Option String` models `new URL(s).toString()`
    (`none` when the constructor throws);
  * `resolve : String → String → Option String` models
    `new URL(loc, current).toString()` (`none` when it throws on a
    malformed Location).
-/

namespace LinkScanner

/-- JavaScript `s.toLowerCase()` (character-wise lowering; the patterns it
is matched against are all ASCII). -/
def jsToLower (s : String) : String := ⟨s.data.map Char.toLower⟩

/-- JavaScript `s.trim()`: strip leading and trailing whitespace. -/
def jsTrim (s : String) : String :=
  ⟨((s.data.dropWhile Char.isWhitespace).reverse.dropWhile Char.isWhitespace).reverse⟩

/-- Does `p` occur at the start of `s`? -/
def jsStartsWith (s p : String) : Bool := p.data.isPrefixOf s.data

/-- JavaScript `s.slice(0, n)`: the first `n` characters of `s`. -/
def jsTake (s : String) (n : Nat) : String := ⟨s.data.take n⟩

/-- HTTP method used for a hop attempt. -/
inductive Method where
  | HEAD
  | GET
deriving DecidableEq, Repr

/-- Raw outcome of a single network request, before `tryFetch` shapes it:
either the server responded (status, optional Location and Content-Type
headers, body text), or the request failed/timed out with an error string.
`ms` is the measured elapsed time. -/
inductive Transport where
  | respond (status : Nat) (location : Option String) (contentType : Option String)
      (body : String) (ms : Nat)
  | fail (error : String) (ms : Nat)
deriving DecidableEq, Repr

/-- The success payload of `tryFetch` (`ok: true` branch, `src/server.js`
lines 58-64): `location` is `res.headers.get("location")` (string or null),
`contentType` is `res.headers.get("content-type") || ""`, and
`bodySnippet` is `""` for HEAD and `text.slice(0, 6000)` for GET. -/
structure FetchOk where
  status : Nat
  ms : Nat
  location : Option String
  contentType : String
  bodySnippet : String
deriving DecidableEq, Repr

/-- Result of `tryFetch` (`src/server.js` lines 33-71): `ok` on response,
`err` with the error text and elapsed time on transport failure. -/
inductive FetchResult where
  | ok (r : FetchOk)
  | err (error : String) (ms : Nat)
deriving DecidableEq, Repr

/-- `tryFetch(url, method)` of `src/server.js` lines 33-71, as a function of
the raw transport outcome: a response is normalized into `FetchOk` (body
read and truncated to 6000 only for GET), a throw is caught and returned
in-band as `FetchResult.err`. -/
def tryFetch (t : Transport) (method : Method) : FetchResult :=
  match t with
  | .respond status location contentType body ms =>
      .ok { status := status
            ms := ms
            location := location
            contentType := contentType.getD ""
            bodySnippet := if method = .GET then jsTake body 6000 else "" }
  | .fail e ms => .err e ms

/-- One entry of the probe chain: `chain.push({url: current, method, ...})`
(`src/server.js` lines 103 and 114). -/
structure ChainEntry where
  url : String
  method : Method
  result : FetchResult
deriving DecidableEq, Repr

/-- `BLOCK_FINGERPRINTS` of `src/server.js` lines 16-23: ordered list of
(vendor name, substring patterns). -/
def BLOCK_FINGERPRINTS : List (String × List String) :=
  [ ("GoGuardian", ["goguardian", "blocked by goguardian", "ggrouter"])
  , ("Securly", ["securly", "blocked by securly"])
  , ("Lightspeed", ["lightspeed systems", "relay.lightspeedsystems"])
  , ("iBoss", ["iboss", "iboss cloud"])
  , ("FortiGuard", ["fortiguard", "web filter"])
  , ("Cisco Umbrella", ["umbrella", "opendns", "domain blocked"]) ]

/-- The generic fallback phrase list of `detectBlock`
(`src/server.js` lines 80-88). -/
def GENERIC_PHRASES : List String :=
  [ "access denied"
  , "this site is blocked"
  , "content blocked"
  , "blocked by policy"
  , "web page blocked"
  , "filter"
  , "policy" ]

/-- JavaScript `s.includes(p)`: `p` occurs as a contiguous substring of `s`. -/
def strIncludes (s p : String) : Bool :=
  (List.range (s.data.length + 1)).any (fun i => p.data.isPrefixOf (s.data.drop i))

/-- The `for (const fp of BLOCK_FINGERPRINTS)` loop of `detectBlock`
(`src/server.js` lines 76-78): return the first vendor any of whose
patterns occurs in `s`, in list order. -/
def findVendor (s : String) : List (String × List String) → Option String
  | [] => none
  | fp :: rest =>
      if fp.2.any (fun p => strIncludes s p) then some fp.1 else findVendor s rest

/-- `detectBlock(snippet)` of `src/server.js` lines 73-92: lower-case the
snippet, try the named vendor rules in order, then the generic phrases. -/
def detectBlock (snippet : String) : Option String :=
  let s := jsToLower snippet
  match findVendor s BLOCK_FINGERPRINTS with
  | some name => some name
  | none =>
      if GENERIC_PHRASES.any (fun p => strIncludes s p) then some "Generic filter page"
      else none

/-- The test `/^https?:\/\//i.test(s)` of `src/server.js` line 28: does the
string start with `http://` or `https://`, case-insensitively? -/
def hasHttpScheme (s : String) : Bool :=
  jsStartsWith (jsToLower s) "http://" || jsStartsWith (jsToLower s) "https://"

/-- `normalizeUrl(input)` of `src/server.js` lines 25-31: trim, reject empty,
default the scheme to `https://`, then parse (`parse` models
`new URL(s).toString()`; `none` models the constructor throwing). -/
def normalizeUrl (parse : String → Option String) (input : String) : Except String String :=
  let s := jsTrim input
  if s = "" then .error "Empty URL"
  else
    let s2 := if hasHttpScheme s then s else "https://" ++ s
    match parse s2 with
    | some u => .ok u
    | none => .error "Invalid URL"

/-- The truthiness test `loc && [301, 302, 303, 307, 308].includes(head.status)`
guarding the redirect branch (`src/server.js` lines 105-106); `loc` is
`null` when the HEAD attempt failed, and an empty-string Location is falsy. -/
def redirectCond (h : FetchResult) : Bool :=
  match h with
  | .err _ _ => false
  | .ok r =>
      (match r.location with
       | some l => l ≠ ""
       | none => false)
      && ([301, 302, 303, 307, 308] : List Nat).contains r.status

/-- The Location header value used by the redirect branch (only read when
`redirectCond` holds, where it is a nonempty string). -/
def locOf (h : FetchResult) : String :=
  match h with
  | .ok r => r.location.getD ""
  | .err _ _ => ""

/-- `needGet = !head.ok || head.status >= 400 || !head.headers.contentType`
(`src/server.js` line 111). -/
def needGet (h : FetchResult) : Bool :=
  match h with
  | .err _ _ => true
  | .ok r => decide (400 ≤ r.status) || r.contentType == ""

/-- The `for (let hop = 0; hop < 6; hop++)` loop of `src/server.js`
lines 101-117. `fuel` is the number of loop iterations left (6 at entry),
`k` the index of the next transport request, `current` the current URL and
`chain` the accumulated chain. A redirect hop resolves the Location and
continues; `new URL(loc, current)` throwing is an uncaught exception,
modelled as `Except.error`. A non-redirect hop optionally issues the GET
fallback and breaks. -/
def scanLoop (resolve : String → String → Option String) (oracle : Nat → Transport) :
    Nat → Nat → String → List ChainEntry → Except String (List ChainEntry)
  | 0, _, _, chain => .ok chain
  | fuel + 1, k, current, chain =>
      let head := tryFetch (oracle k) .HEAD
      let chain2 := chain ++ [⟨current, .HEAD, head⟩]
      if redirectCond head then
        match resolve (locOf head) current with
        | some next => scanLoop resolve oracle fuel (k + 1) next chain2
        | none => .error "Invalid URL"
      else
        .ok (if needGet head then chain2 ++ [⟨current, .GET, tryFetch (oracle (k + 1)) .GET⟩]
             else chain2)

/-- `last?.bodySnippet || ""`: the body snippet of an attempt, empty on a
failed attempt (`src/server.js` line 122). -/
def entrySnippet (e : ChainEntry) : String :=
  match e.result with
  | .ok r => r.bodySnippet
  | .err _ _ => ""

/-- Snippet of an optional attempt, `""` when absent. -/
def snippetOfOpt : Option ChainEntry → String
  | some e => entrySnippet e
  | none => ""

/-- `chain.slice().reverse().find(x => x.method === "GET") || chain[chain.length-1]`
(`src/server.js` lines 119-120): the most recent GET attempt if any, else
the chain's final entry. -/
def lastAttempt (chain : List ChainEntry) : Option ChainEntry :=
  (chain.reverse.find? (fun e => e.method = .GET)).orElse (fun _ => chain.getLast?)

/-- Is the optional last attempt a success (`last?.ok`)? -/
def lastOkB : Option ChainEntry → Bool
  | some ⟨_, _, .ok _⟩ => true
  | _ => false

/-- Status of the optional last attempt; only read under `lastOkB` (the
JavaScript `&&` short-circuits, so the default is never observed). -/
def lastStatus : Option ChainEntry → Nat
  | some ⟨_, _, .ok r⟩ => r.status
  | _ => 0

/-- The verdict computation of `src/server.js` lines 119-139: detect a
vendor on the last attempt's snippet, then the if/else-if cascade over
`verdict`/`score` initialized to `("uncertain", 50)`. Returns
(verdict, score, blockVendor). -/
def computeVerdict (chain : List ChainEntry) : String × Nat × Option String :=
  let last := lastAttempt chain
  let blockVendor := detectBlock (snippetOfOpt last)
  let vs : String × Nat :=
    if blockVendor.isSome then ("likely_blocked", 90)
    else if lastOkB last && (decide (200 ≤ lastStatus last) && decide (lastStatus last < 400)) then
      ("likely_allowed", 80)
    else if lastOkB last && lastStatus last == 403 then ("likely_blocked", 75)
    else if !lastOkB last then ("uncertain", 45)
    else ("uncertain", 50)
  (vs.1, vs.2, blockVendor)

/-- The JSON object returned by a successful `/api/scan` probe
(`src/server.js` lines 141-156), keeping chain entries unsummarized. -/
structure ScanResult where
  input : String
  verdict : String
  score : Nat
  blockVendor : Option String
  chain : List ChainEntry
deriving DecidableEq, Repr

/-- The `/api/scan` handler body (`src/server.js` lines 95-159):
normalize, run the hop loop with `HOP_LIMIT = 6`, compute the verdict.
`Except.error` models the `catch` branch answering 400 with an error
message and no chain. -/
def scan (parse : String → Option String) (resolve : String → String → Option String)
    (oracle : Nat → Transport) (input : String) : Except String ScanResult :=
  match normalizeUrl parse input with
  | .error e => .error e
  | .ok target =>
      match scanLoop resolve oracle 6 0 target [] with
      | .error e => .error e
      | .ok chain =>
          let v := computeVerdict chain
          .ok { input := target, verdict := v.1, score := v.2.1
                blockVendor := v.2.2, chain := chain }

end LinkScanner

namespace LinkScanner

/-! ## General lemmas about the embedded definitions -/

/-- The empty snippet matches no fingerprint and no generic phrase. -/
lemma detectBlock_empty : detectBlock "" = none := rfl

/-- A HEAD attempt never carries a body snippet, whatever the transport did. -/
lemma entrySnippet_head (u : String) (t : Transport) :
    entrySnippet ⟨u, .HEAD, tryFetch t .HEAD⟩ = "" := by
  cases t <;> rfl

/-- Unfolding `scanLoop` on a hop whose HEAD response is a usable redirect:
the hop appends exactly the HEAD attempt and continues at the resolved URL. -/
lemma scanLoop_redirect_step (resolve : String → String → Option String)
    (oracle : Nat → Transport) (fuel k : Nat) (current next : String)
    (acc : List ChainEntry) (h : FetchResult)
    (hh : tryFetch (oracle k) .HEAD = h)
    (hred : redirectCond h = true)
    (hres : resolve (locOf h) current = some next) :
    scanLoop resolve oracle (fuel + 1) k current acc =
      scanLoop resolve oracle fuel (k + 1) next (acc ++ [⟨current, .HEAD, h⟩]) := by
  subst hh
  simp only [scanLoop, hred, hres, if_true]

/-- Unfolding `scanLoop` on a hop whose HEAD response is a usable redirect
but whose Location does not resolve: the probe aborts with an error. -/
lemma scanLoop_redirect_throw (resolve : String → String → Option String)
    (oracle : Nat → Transport) (fuel k : Nat) (current : String)
    (acc : List ChainEntry) (h : FetchResult)
    (hh : tryFetch (oracle k) .HEAD = h)
    (hred : redirectCond h = true)
    (hres : resolve (locOf h) current = none) :
    scanLoop resolve oracle (fuel + 1) k current acc = .error "Invalid URL" := by
  subst hh
  simp only [scanLoop, hred, hres, if_true]

/-- Unfolding `scanLoop` on a terminal (non-redirect) hop: the hop appends
the HEAD attempt, then the GET fallback exactly when `needGet`, and stops. -/
lemma scanLoop_terminal (resolve : String → String → Option String)
    (oracle : Nat → Transport) (fuel k : Nat) (current : String)
    (acc : List ChainEntry) (h : FetchResult)
    (hh : tryFetch (oracle k) .HEAD = h)
    (hred : redirectCond h = false) :
    scanLoop resolve oracle (fuel + 1) k current acc =
      .ok (if needGet h then
             (acc ++ [⟨current, .HEAD, h⟩]) ++ [⟨current, .GET, tryFetch (oracle (k + 1)) .GET⟩]
           else acc ++ [⟨current, .HEAD, h⟩]) := by
  subst hh
  simp only [scanLoop, hred, Bool.false_eq_true, if_false]

end LinkScanner

namespace LinkScanner

/-- A status from the standard redirect list lies in `[200, 400)`. -/
lemma mem_redirect_bounds (st : Nat) (h : st ∈ ([301, 302, 303, 307, 308] : List Nat)) :
    200 ≤ st ∧ st < 400 := by
  simp at h
  omega

/-- `findVendor` is the first fingerprint, in list order, any of whose
patterns occurs in `s`. -/
lemma findVendor_eq_find? (s : String) (l : List (String × List String)) :
    findVendor s l = (l.find? (fun fp => fp.2.any (fun p => strIncludes s p))).map Prod.fst := by
  induction l with
  | nil => rfl
  | cons fp rest ih =>
      by_cases h : fp.2.any (fun p => strIncludes s p)
      · simp [findVendor, List.find?, h]
      · simp only [Bool.not_eq_true] at h
        simp [findVendor, List.find?, h, ih]

/-- Shape of any chain produced by a successful run of `scanLoop`: the
accumulator, then at most `fuel` HEAD attempts (each with an empty body
snippet), then at most one trailing GET attempt. -/
lemma scanLoop_shape (resolve : String → String → Option String) (oracle : Nat → Transport) :
    ∀ (fuel k : Nat) (current : String) (acc ch : List ChainEntry),
      scanLoop resolve oracle fuel k current acc = .ok ch →
      ∃ heads tail, ch = acc ++ heads ++ tail ∧ heads.length ≤ fuel ∧
        (∀ e ∈ heads, e.method = .HEAD ∧ entrySnippet e = "") ∧
        (tail = [] ∨ ∃ u g, tail = [⟨u, .GET, g⟩]) := by
  intro fuel
  induction fuel with
  | zero =>
      intro k current acc ch h
      refine ⟨[], [], ?_, by simp, by simp, Or.inl rfl⟩
      simpa [scanLoop] using h.symm
  | succ n ih =>
      intro k current acc ch h
      by_cases hred : redirectCond (tryFetch (oracle k) .HEAD) = true
      · cases hres : resolve (locOf (tryFetch (oracle k) .HEAD)) current with
        | none =>
            rw [scanLoop_redirect_throw resolve oracle n k current acc _ rfl hred hres] at h
            exact absurd h (by simp)
        | some next =>
            rw [scanLoop_redirect_step resolve oracle n k current next acc _ rfl hred hres] at h
            obtain ⟨heads, tail, hch, hlen, hhd, htl⟩ := ih (k + 1) next
              (acc ++ [⟨current, .HEAD, tryFetch (oracle k) .HEAD⟩]) ch h
            refine ⟨⟨current, .HEAD, tryFetch (oracle k) .HEAD⟩ :: heads, tail, ?_, by
              simpa using Nat.succ_le_succ hlen, ?_, htl⟩
            · simpa using hch
            · intro e he
              rcases List.mem_cons.mp he with rfl | he'
              · exact ⟨rfl, entrySnippet_head current (oracle k)⟩
              · exact hhd e he'
      · rw [Bool.not_eq_true] at hred
        rw [scanLoop_terminal resolve oracle n k current acc _ rfl hred] at h
        by_cases hng : needGet (tryFetch (oracle k) .HEAD) = true
        · rw [hng] at h
          simp only [if_true, Except.ok.injEq] at h
          refine ⟨[⟨current, .HEAD, tryFetch (oracle k) .HEAD⟩],
            [⟨current, .GET, tryFetch (oracle (k + 1)) .GET⟩], ?_, by simp, ?_, ?_⟩
          · simpa using h.symm
          · intro e he
            rcases List.mem_singleton.mp he with rfl
            exact ⟨rfl, entrySnippet_head current (oracle k)⟩
          · exact Or.inr ⟨current, tryFetch (oracle (k + 1)) .GET, rfl⟩
        · rw [Bool.not_eq_true] at hng
          rw [hng] at h
          simp only [Bool.false_eq_true, if_false, Except.ok.injEq] at h
          refine ⟨[⟨current, .HEAD, tryFetch (oracle k) .HEAD⟩], [], ?_, by simp, ?_, Or.inl rfl⟩
          · simpa using h.symm
          · intro e he
            rcases List.mem_singleton.mp he with rfl
            exact ⟨rfl, entrySnippet_head current (oracle k)⟩

end LinkScanner

namespace LinkScanner

/-- The spec's identification of the attempt the verdict is computed from:
the most recent GET attempt in the chain if one exists, else the chain's
final entry. -/
def lastAttemptSpec (chain : List ChainEntry) : Option ChainEntry :=
  match chain.reverse.find? (fun e => e.method = .GET) with
  | some e => some e
  | none => chain.getLast?

/-- The verdict rule exactly as the spec words it, as a priority list over
the last attempt: detected vendor, then success with status in `[200, 400)`,
then success with status 403, then transport failure, then the default. -/
def verdictSpec (chain : List ChainEntry) : String × Nat × Option String :=
  let last := lastAttemptSpec chain
  match detectBlock (snippetOfOpt last) with
  | some v => ("likely_blocked", 90, some v)
  | none =>
      match last with
      | some ⟨_, _, .ok r⟩ =>
          if 200 ≤ r.status ∧ r.status < 400 then ("likely_allowed", 80, none)
          else if r.status = 403 then ("likely_blocked", 75, none)
          else ("uncertain", 50, none)
      | some ⟨_, _, .err _ _⟩ => ("uncertain", 45, none)
      | none => ("uncertain", 45, none)

lemma lastAttempt_eq_spec (chain : List ChainEntry) :
    lastAttempt chain = lastAttemptSpec chain := by
  unfold lastAttempt lastAttemptSpec
  cases chain.reverse.find? (fun e => e.method = .GET) <;> rfl

/-- C1: a malformed Location header on a redirect hop does NOT fall through
to the non-redirect branch: `new URL(loc, current)` throws
(`src/server.js` line 107), the exception escapes the hop loop and is
caught by the route's catch, which answers with a 400 error and no
chain/verdict. Concretely: probing `example.com` where the first HEAD
responds 301 with an unresolvable `Location: http://%%`, the handler
returns the error response, not a chain. -/
theorem C1_malformed_location_fails_probe :
    scan (fun s => some s) (fun _ _ => none)
      (fun _ => .respond 301 (some "http://%%") none "" 1) "example.com"
      = .error "Invalid URL" := rfl

/-- C2: for every chain, the verdict, score and detected vendor computed by
the handler (`src/server.js` lines 119-139) agree with the spec's priority
list over the last attempt (most recent GET if any, else final entry):
vendor detected gives likely_blocked 90; else a successful last attempt
with status in `[200, 400)` gives likely_allowed 80; else a successful
403 gives likely_blocked 75; else an unsuccessful last attempt gives
uncertain 45; else uncertain 50. -/
theorem C2_verdict_matches_spec :
    ∀ chain : List ChainEntry, computeVerdict chain = verdictSpec chain := by
  intro chain
  unfold computeVerdict verdictSpec
  rw [lastAttempt_eq_spec]
  cases hl : lastAttemptSpec chain with
  | none => simp [snippetOfOpt, lastOkB, lastStatus, detectBlock_empty]
  | some e =>
      obtain ⟨u, mth, r⟩ := e
      cases hd : detectBlock (snippetOfOpt (some ⟨u, mth, r⟩)) with
      | some v => simp [hd]
      | none =>
          cases r with
          | err er ms => simp [hd, lastOkB, lastStatus]
          | ok fo =>
              simp only [hd, Option.isSome_none, Bool.false_eq_true, if_false,
                lastOkB, lastStatus]
              by_cases h1 : 200 ≤ fo.status ∧ fo.status < 400
              · simp [h1, h1.1, h1.2]
              · by_cases h2 : fo.status = 403
                · simp [h1, h2]
                · simp [h1, h2]

end LinkScanner

namespace LinkScanner

/-- The detector exactly as the spec words it: lower-case the snippet,
take the FIRST vendor rule in list order any of whose patterns is a
substring, and only when none matches consult the generic phrases. -/
def detectBlockSpec (snippet : String) : Option String :=
  let s := jsToLower snippet
  match BLOCK_FINGERPRINTS.find? (fun fp => fp.2.any (fun p => strIncludes s p)) with
  | some fp => some fp.1
  | none =>
      if GENERIC_PHRASES.any (fun p => strIncludes s p) then some "Generic filter page"
      else none

/-- C5: the detector lower-cases the snippet and returns the name of the
first vendor rule, in the fixed `BLOCK_FINGERPRINTS` order, any of whose
patterns occurs in the lowered snippet; the generic fallback is consulted
only when no vendor rule matches, so a snippet that matches a named vendor
pattern always yields that vendor name (never `"Generic filter page"` and
never `none`), even when it also contains a generic phrase. -/
theorem C5_detector_first_match :
    ∀ snippet : String,
      detectBlock snippet = detectBlockSpec snippet ∧
      ((∃ fp ∈ BLOCK_FINGERPRINTS, ∃ p ∈ fp.2, strIncludes (jsToLower snippet) p = true) →
        ∃ fp ∈ BLOCK_FINGERPRINTS,
          detectBlock snippet = some fp.1 ∧
          detectBlock snippet ≠ some "Generic filter page" ∧
          detectBlock snippet ≠ none) := by
  intro snippet
  constructor
  · unfold detectBlock detectBlockSpec
    simp only [findVendor_eq_find?]
    cases BLOCK_FINGERPRINTS.find? (fun fp => fp.2.any (fun p => strIncludes (jsToLower snippet) p)) <;> rfl
  · rintro ⟨fp, hmem, p, hp, hinc⟩
    have hex : (BLOCK_FINGERPRINTS.find?
        (fun fp => fp.2.any (fun q => strIncludes (jsToLower snippet) q))).isSome := by
      rw [List.find?_isSome]
      exact ⟨fp, hmem, List.any_eq_true.mpr ⟨p, hp, hinc⟩⟩
    obtain ⟨fp0, hfp0⟩ := Option.isSome_iff_exists.mp hex
    have hmem0 : fp0 ∈ BLOCK_FINGERPRINTS := List.mem_of_find?_eq_some hfp0
    have hdb : detectBlock snippet = some fp0.1 := by
      unfold detectBlock
      simp only [findVendor_eq_find?, hfp0]
      rfl
    refine ⟨fp0, hmem0, hdb, ?_, by simp [hdb]⟩
    rw [hdb]
    have : fp0.1 ≠ "Generic filter page" := by
      simp only [BLOCK_FINGERPRINTS] at hmem0
      fin_cases hmem0 <;> decide
    simp [this]

/-- C6: `normalizeUrl` trims the input; a whitespace-only input is rejected
with the `Empty URL` error before any network request (the scan returns
that error whatever the transport does, with no chain); a nonempty trimmed
input that already starts with `http://` or `https://` (case-insensitively)
is passed to the URL parser unchanged (scheme preserved); any other
nonempty trimmed input gets `https://` prepended before parsing. -/
theorem C6_normalization :
    ∀ (parse : String → Option String) (input : String),
      (jsTrim input = "" →
        normalizeUrl parse input = .error "Empty URL" ∧
        ∀ (resolve : String → String → Option String) (oracle : Nat → Transport),
          scan parse resolve oracle input = .error "Empty URL") ∧
      (jsTrim input ≠ "" → hasHttpScheme (jsTrim input) = true →
        normalizeUrl parse input =
          (match parse (jsTrim input) with
           | some u => .ok u
           | none => .error "Invalid URL")) ∧
      (jsTrim input ≠ "" → hasHttpScheme (jsTrim input) = false →
        normalizeUrl parse input =
          (match parse ("https://" ++ jsTrim input) with
           | some u => .ok u
           | none => .error "Invalid URL")) := by
  intro parse input
  refine ⟨?_, ?_, ?_⟩
  · intro h
    have hn : normalizeUrl parse input = .error "Empty URL" := by
      unfold normalizeUrl
      simp [h]
    refine ⟨hn, ?_⟩
    intro resolve oracle
    unfold scan
    rw [hn]
  · intro h hs
    unfold normalizeUrl
    simp [h, hs]
  · intro h hs
    unfold normalizeUrl
    simp [h, hs]

end LinkScanner

namespace LinkScanner

/-- Inversion of a successful `scan`: recover the normalized target, the
hop-loop equation for the chain, and the verdict equations. -/
lemma scan_ok_inv (parse : String → Option String) (resolve : String → String → Option String)
    (oracle : Nat → Transport) (input : String) (res : ScanResult) :
    scan parse resolve oracle input = .ok res →
    ∃ target, normalizeUrl parse input = .ok target ∧
      scanLoop resolve oracle 6 0 target [] = .ok res.chain ∧
      res.input = target ∧
      (res.verdict, res.score, res.blockVendor) = computeVerdict res.chain := by
  intro h
  unfold scan at h
  cases hn : normalizeUrl parse input with
  | error e => simp only [hn] at h; exact Except.noConfusion h
  | ok target =>
      simp only [hn] at h
      cases hl : scanLoop resolve oracle 6 0 target [] with
      | error e => simp only [hl] at h; exact Except.noConfusion h
      | ok chain =>
          simp only [hl, Except.ok.injEq] at h
          subst h
          exact ⟨target, rfl, hl, rfl, rfl⟩

/-- C3: every chain a completed probe returns contains at most 6 HEAD
attempts (`HOP_LIMIT = 6`) and at most one GET attempt, and any GET
attempt can only be the chain's final entry. -/
theorem C3_hop_and_get_bound :
    ∀ (parse : String → Option String) (resolve : String → String → Option String)
      (oracle : Nat → Transport) (input : String) (res : ScanResult),
      scan parse resolve oracle input = .ok res →
      res.chain.countP (fun e => decide (e.method = .HEAD)) ≤ 6 ∧
      res.chain.countP (fun e => decide (e.method = .GET)) ≤ 1 ∧
      ∀ e ∈ res.chain.dropLast, e.method = .HEAD := by
  intro parse resolve oracle input res h
  obtain ⟨target, hn, hl, -, -⟩ := scan_ok_inv parse resolve oracle input res h
  obtain ⟨heads, tail, hch, hlen, hhd, htl⟩ :=
    scanLoop_shape resolve oracle 6 0 target [] res.chain hl
  simp only [List.nil_append] at hch
  refine ⟨?_, ?_, ?_⟩
  · rw [hch, List.countP_append]
    have h1 : heads.countP (fun e => decide (e.method = .HEAD)) ≤ heads.length :=
      List.countP_le_length _
    have h2 : tail.countP (fun e => decide (e.method = .HEAD)) = 0 := by
      rcases htl with rfl | ⟨u, g, rfl⟩
      · rfl
      · rfl
    omega
  · rw [hch, List.countP_append]
    have h1 : heads.countP (fun e => decide (e.method = .GET)) = 0 :=
      List.countP_eq_zero.mpr (fun e he => by simp [(hhd e he).1])
    have h2 : tail.countP (fun e => decide (e.method = .GET)) ≤ tail.length :=
      List.countP_le_length _
    have h3 : tail.length ≤ 1 := by
      rcases htl with rfl | ⟨u, g, rfl⟩ <;> simp
    omega
  · intro e he
    rw [hch] at he
    rcases htl with rfl | ⟨u, g, rfl⟩
    · rw [List.append_nil] at he
      exact (hhd e ((List.dropLast_sublist heads).subset he)).1
    · rw [List.dropLast_concat] at he
      exact (hhd e he).1

/-- The spec's condition for issuing the GET fallback on the terminal hop:
the HEAD attempt failed outright, or its status is at least 400, or it
reports no Content-Type header. -/
def getNeededSpec (h : FetchResult) : Prop :=
  (∃ e ms, h = .err e ms) ∨ (∃ r, h = .ok r ∧ (400 ≤ r.status ∨ r.contentType = ""))

/-- `needGet` decides exactly the spec's three-way condition. -/
lemma needGet_iff (h : FetchResult) : needGet h = true ↔ getNeededSpec h := by
  cases h with
  | err e ms => simp [needGet, getNeededSpec]
  | ok r => simp [needGet, getNeededSpec]

/-- C4: on a terminal (non-redirect) hop, the GET fallback is issued if and
only if the HEAD attempt failed outright, or its status is at least 400, or
it reports no Content-Type header; when issued it targets the same current
URL and is appended right after the HEAD attempt; a hop whose HEAD response
is a usable redirect appends only the HEAD attempt and continues, never a
GET. -/
theorem C4_get_fallback_policy :
    ∀ (resolve : String → String → Option String) (oracle : Nat → Transport)
      (fuel k : Nat) (current : String) (acc : List ChainEntry),
      (redirectCond (tryFetch (oracle k) .HEAD) = false →
        ((getNeededSpec (tryFetch (oracle k) .HEAD) →
           scanLoop resolve oracle (fuel + 1) k current acc =
             .ok ((acc ++ [⟨current, .HEAD, tryFetch (oracle k) .HEAD⟩]) ++
                   [⟨current, .GET, tryFetch (oracle (k + 1)) .GET⟩])) ∧
         (¬getNeededSpec (tryFetch (oracle k) .HEAD) →
           scanLoop resolve oracle (fuel + 1) k current acc =
             .ok (acc ++ [⟨current, .HEAD, tryFetch (oracle k) .HEAD⟩])))) ∧
      (redirectCond (tryFetch (oracle k) .HEAD) = true →
        ∀ next, resolve (locOf (tryFetch (oracle k) .HEAD)) current = some next →
          scanLoop resolve oracle (fuel + 1) k current acc =
            scanLoop resolve oracle fuel (k + 1) next
              (acc ++ [⟨current, .HEAD, tryFetch (oracle k) .HEAD⟩])) := by
  intro resolve oracle fuel k current acc
  constructor
  · intro hred
    have ht := scanLoop_terminal resolve oracle fuel k current acc _ rfl hred
    constructor
    · intro hg
      rw [ht, (needGet_iff _).mpr hg, if_pos rfl]
    · intro hg
      have hng : needGet (tryFetch (oracle k) .HEAD) = false := by
        rcases hb : needGet (tryFetch (oracle k) .HEAD) with _ | _
        · rfl
        · exact absurd ((needGet_iff _).mp hb) hg
      rw [ht, hng]
      simp
  · intro hred next hres
    exact scanLoop_redirect_step resolve oracle fuel k current next acc _ rfl hred hres

/-- C7: a transport failure is recorded in-band, never raised: if the HEAD
attempt on the normalized target fails and the fallback GET fails too, the
probe still completes with `.ok`, returning a chain of exactly the two
failed attempts, verdict `uncertain`, score 45 and no detected vendor. -/
theorem C7_transport_failure_in_band :
    ∀ (parse : String → Option String) (resolve : String → String → Option String)
      (oracle : Nat → Transport) (input target e0 e1 : String) (m0 m1 : Nat),
      normalizeUrl parse input = .ok target →
      oracle 0 = .fail e0 m0 →
      oracle 1 = .fail e1 m1 →
      scan parse resolve oracle input =
        .ok { input := target, verdict := "uncertain", score := 45, blockVendor := none,
              chain := [⟨target, .HEAD, .err e0 m0⟩, ⟨target, .GET, .err e1 m1⟩] } := by
  intro parse resolve oracle input target e0 e1 m0 m1 hn h0 h1
  have hh : tryFetch (oracle 0) .HEAD = .err e0 m0 := by rw [h0]; rfl
  have h2 := scanLoop_terminal resolve oracle 5 0 target [] (.err e0 m0) hh rfl
  have h2' : scanLoop resolve oracle 6 0 target [] =
      .ok [⟨target, .HEAD, .err e0 m0⟩, ⟨target, .GET, tryFetch (oracle 1) .GET⟩] := h2
  have h3 : tryFetch (oracle 1) .GET = .err e1 m1 := by rw [h1]; rfl
  rw [h3] at h2'
  unfold scan
  rw [hn]
  simp only [h2']
  rfl

end LinkScanner

namespace LinkScanner

/-- C9: the generic fallback list contains the bare words `filter` and
`policy`; any snippet whose lowering contains either word while no vendor
rule matches is reported as `Generic filter page`, and a probe whose last
attempt carries such a snippet is classified likely_blocked with score 90
and that vendor string — even for innocuous text such as a privacy-policy
link. -/
theorem C9_generic_filter_policy_words :
    "filter" ∈ GENERIC_PHRASES ∧ "policy" ∈ GENERIC_PHRASES ∧
    ∀ snippet : String,
      (strIncludes (jsToLower snippet) "filter" = true ∨
       strIncludes (jsToLower snippet) "policy" = true) →
      findVendor (jsToLower snippet) BLOCK_FINGERPRINTS = none →
      detectBlock snippet = some "Generic filter page" ∧
      ∀ chain : List ChainEntry, snippetOfOpt (lastAttempt chain) = snippet →
        computeVerdict chain = ("likely_blocked", 90, some "Generic filter page") := by
  refine ⟨by simp [GENERIC_PHRASES], by simp [GENERIC_PHRASES], ?_⟩
  intro snippet hword hnv
  have hany : GENERIC_PHRASES.any (fun p => strIncludes (jsToLower snippet) p) = true := by
    rcases hword with h | h
    · exact List.any_eq_true.mpr ⟨"filter", by simp [GENERIC_PHRASES], h⟩
    · exact List.any_eq_true.mpr ⟨"policy", by simp [GENERIC_PHRASES], h⟩
  have hdb : detectBlock snippet = some "Generic filter page" := by
    unfold detectBlock
    simp only [hnv, hany, if_true]
  refine ⟨hdb, ?_⟩
  intro chain hsn
  unfold computeVerdict
  simp only [hsn, hdb, Option.isSome_some, if_true]

/-- C10: HEAD attempts never carry a body snippet (the body is read only
for GET), and a completed probe whose chain contains no GET attempt runs
the detector on the empty string: its `blockVendor` is always `none`. -/
theorem C10_head_snippets_empty :
    ∀ (parse : String → Option String) (resolve : String → String → Option String)
      (oracle : Nat → Transport) (input : String) (res : ScanResult),
      scan parse resolve oracle input = .ok res →
      (∀ e ∈ res.chain, e.method = .HEAD → entrySnippet e = "") ∧
      ((∀ e ∈ res.chain, e.method ≠ .GET) → res.blockVendor = none) := by
  intro parse resolve oracle input res h
  obtain ⟨target, hn, hl, -, hv⟩ := scan_ok_inv parse resolve oracle input res h
  obtain ⟨heads, tail, hch, hlen, hhd, htl⟩ :=
    scanLoop_shape resolve oracle 6 0 target [] res.chain hl
  simp only [List.nil_append] at hch
  constructor
  · intro e he hm
    rw [hch] at he
    rcases List.mem_append.mp he with h1 | h2
    · exact (hhd e h1).2
    · rcases htl with rfl | ⟨uu, g, rfl⟩
      · cases h2
      · rcases List.mem_singleton.mp h2 with rfl
        exact absurd hm (by simp)
  · intro hng
    have htail : tail = [] := by
      rcases htl with rfl | ⟨uu, g, rfl⟩
      · rfl
      · exact absurd rfl (hng ⟨uu, .GET, g⟩
          (by rw [hch]; exact List.mem_append.mpr (Or.inr (List.mem_singleton.mpr rfl))))
    subst htail
    rw [List.append_nil] at hch
    have hbv : res.blockVendor = (computeVerdict res.chain).2.2 :=
      congrArg (fun t => t.2.2) hv
    rw [hbv]
    unfold computeVerdict lastAttempt
    have hfind : res.chain.reverse.find? (fun e => e.method = .GET) = none := by
      rw [List.find?_eq_none]
      intro x hx
      rw [List.mem_reverse, hch] at hx
      simp [(hhd x hx).1]
    cases hg : res.chain.getLast? with
    | none => simp [hfind, hg, snippetOfOpt, detectBlock_empty, Option.orElse]
    | some e =>
        have hmem : e ∈ res.chain := by
          obtain ⟨hne, hx⟩ :=
            List.mem_getLast?_eq_getLast (show e ∈ res.chain.getLast? from hg)
          rw [hx]
          exact List.getLast_mem hne
        rw [hch] at hmem
        simp [hfind, hg, snippetOfOpt, (hhd e hmem).2, detectBlock_empty, Option.orElse]

end LinkScanner

namespace LinkScanner

/-- C8: when all six hops' HEAD attempts succeed with a standard redirect
status and a resolvable nonempty Location, the hop limit is exhausted while
still chasing redirects: the chain is exactly the six HEAD attempts (no GET
is ever issued), and the verdict comes from the sixth HEAD entry, whose
3xx status lies in `[200, 400)` and whose body snippet is empty — so the
probe reports likely_allowed, score 80, and no detected vendor. -/
theorem C8_hop_limit_exhausted :
    ∀ (parse : String → Option String) (resolve : String → String → Option String)
      (oracle : Nat → Transport) (input : String) (u : Nat → String)
      (st m : Nat → Nat) (l : Nat → String) (ct : Nat → Option String) (b : Nat → String),
      normalizeUrl parse input = .ok (u 0) →
      (∀ k, k < 6 → oracle k = .respond (st k) (some (l k)) (ct k) (b k) (m k)) →
      (∀ k, k < 6 → st k ∈ ([301, 302, 303, 307, 308] : List Nat)) →
      (∀ k, k < 6 → l k ≠ "") →
      (∀ k, k < 6 → resolve (l k) (u k) = some (u (k + 1))) →
      scan parse resolve oracle input = .ok
        { input := u 0, verdict := "likely_allowed", score := 80, blockVendor := none,
          chain :=
            [ ⟨u 0, .HEAD, .ok ⟨st 0, m 0, some (l 0), (ct 0).getD "", ""⟩⟩
            , ⟨u 1, .HEAD, .ok ⟨st 1, m 1, some (l 1), (ct 1).getD "", ""⟩⟩
            , ⟨u 2, .HEAD, .ok ⟨st 2, m 2, some (l 2), (ct 2).getD "", ""⟩⟩
            , ⟨u 3, .HEAD, .ok ⟨st 3, m 3, some (l 3), (ct 3).getD "", ""⟩⟩
            , ⟨u 4, .HEAD, .ok ⟨st 4, m 4, some (l 4), (ct 4).getD "", ""⟩⟩
            , ⟨u 5, .HEAD, .ok ⟨st 5, m 5, some (l 5), (ct 5).getD "", ""⟩⟩ ] } := by
  intro parse resolve oracle input u st m l ct b hn ho hst hl hres
  have e : ∀ k, k < 6 →
      tryFetch (oracle k) .HEAD = .ok ⟨st k, m k, some (l k), (ct k).getD "", ""⟩ := by
    intro k hk
    rw [ho k hk]
    rfl
  have hr : ∀ k, k < 6 →
      redirectCond (.ok ⟨st k, m k, some (l k), (ct k).getD "", ""⟩) = true := by
    intro k hk
    have h1 := hl k hk
    have h2 := hst k hk
    simp only [redirectCond, Bool.and_eq_true, decide_eq_true_eq]
    refine ⟨h1, ?_⟩
    simp only [List.mem_cons, List.not_mem_nil, or_false] at h2
    rcases h2 with h2 | h2 | h2 | h2 | h2 <;> rw [h2] <;> rfl
  have hchain : scanLoop resolve oracle 6 0 (u 0) [] = .ok
      [ ⟨u 0, .HEAD, .ok ⟨st 0, m 0, some (l 0), (ct 0).getD "", ""⟩⟩
      , ⟨u 1, .HEAD, .ok ⟨st 1, m 1, some (l 1), (ct 1).getD "", ""⟩⟩
      , ⟨u 2, .HEAD, .ok ⟨st 2, m 2, some (l 2), (ct 2).getD "", ""⟩⟩
      , ⟨u 3, .HEAD, .ok ⟨st 3, m 3, some (l 3), (ct 3).getD "", ""⟩⟩
      , ⟨u 4, .HEAD, .ok ⟨st 4, m 4, some (l 4), (ct 4).getD "", ""⟩⟩
      , ⟨u 5, .HEAD, .ok ⟨st 5, m 5, some (l 5), (ct 5).getD "", ""⟩⟩ ] :=
    (scanLoop_redirect_step resolve oracle 5 0 (u 0) (u 1) _ _
        (e 0 (by omega)) (hr 0 (by omega)) (hres 0 (by omega))).trans
    ((scanLoop_redirect_step resolve oracle 4 1 (u 1) (u 2) _ _
        (e 1 (by omega)) (hr 1 (by omega)) (hres 1 (by omega))).trans
    ((scanLoop_redirect_step resolve oracle 3 2 (u 2) (u 3) _ _
        (e 2 (by omega)) (hr 2 (by omega)) (hres 2 (by omega))).trans
    ((scanLoop_redirect_step resolve oracle 2 3 (u 3) (u 4) _ _
        (e 3 (by omega)) (hr 3 (by omega)) (hres 3 (by omega))).trans
    ((scanLoop_redirect_step resolve oracle 1 4 (u 4) (u 5) _ _
        (e 4 (by omega)) (hr 4 (by omega)) (hres 4 (by omega))).trans
    ((scanLoop_redirect_step resolve oracle 0 5 (u 5) (u 6) _ _
        (e 5 (by omega)) (hr 5 (by omega)) (hres 5 (by omega))).trans
    rfl)))))
  have hb := mem_redirect_bounds (st 5) (hst 5 (by omega))
  unfold scan
  simp only [hn, hchain]
  unfold computeVerdict lastAttempt
  simp [snippetOfOpt, entrySnippet, lastOkB, lastStatus, detectBlock_empty,
    Option.orElse, hb.1, hb.2]

end LinkScanner

namespace LinkScanner

/-- Witness for C3 at a concrete probe (both attempts time out). -/
theorem C3_hop_and_get_bound_witness :
    ([⟨"https://a", .HEAD, .err "t" 1⟩, ⟨"https://a", .GET, .err "t" 1⟩] : List ChainEntry).countP
        (fun e => decide (e.method = .HEAD)) ≤ 6 ∧
    ([⟨"https://a", .HEAD, .err "t" 1⟩, ⟨"https://a", .GET, .err "t" 1⟩] : List ChainEntry).countP
        (fun e => decide (e.method = .GET)) ≤ 1 ∧
    ∀ e ∈ ([⟨"https://a", .HEAD, .err "t" 1⟩,
            ⟨"https://a", .GET, .err "t" 1⟩] : List ChainEntry).dropLast, e.method = .HEAD :=
  C3_hop_and_get_bound (fun s => some s) (fun _ _ => none) (fun _ => .fail "t" 1) "a"
    { input := "https://a", verdict := "uncertain", score := 45, blockVendor := none,
      chain := [⟨"https://a", .HEAD, .err "t" 1⟩, ⟨"https://a", .GET, .err "t" 1⟩] } rfl

/-- Witness for C4 at a concrete terminal hop (HEAD fails outright, so the
GET fallback is issued against the same URL). -/
theorem C4_get_fallback_policy_witness :
    scanLoop (fun _ _ => none) (fun _ => .fail "t" 1) 1 0 "https://u" [] =
      .ok [⟨"https://u", .HEAD, .err "t" 1⟩, ⟨"https://u", .GET, .err "t" 1⟩] :=
  ((C4_get_fallback_policy (fun _ _ => none) (fun _ => .fail "t" 1) 0 0 "https://u" []).1
      rfl).1 (Or.inl ⟨"t", 1, rfl⟩)

/-- Witness for C5 at a concrete snippet matching both the GoGuardian rule
and the generic phrase `filter`: the named vendor wins. -/
theorem C5_detector_first_match_witness :
    detectBlock "Blocked By GoGuardian web filter" =
      detectBlockSpec "Blocked By GoGuardian web filter" ∧
    ∃ fp ∈ BLOCK_FINGERPRINTS,
      detectBlock "Blocked By GoGuardian web filter" = some fp.1 ∧
      detectBlock "Blocked By GoGuardian web filter" ≠ some "Generic filter page" ∧
      detectBlock "Blocked By GoGuardian web filter" ≠ none :=
  ⟨(C5_detector_first_match "Blocked By GoGuardian web filter").1,
   (C5_detector_first_match "Blocked By GoGuardian web filter").2
     ⟨("GoGuardian", ["goguardian", "blocked by goguardian", "ggrouter"]),
      by simp [BLOCK_FINGERPRINTS], "goguardian", by simp, rfl⟩⟩

/-- Witness for C6 at concrete inputs: a whitespace-only input, an input
with an explicit scheme, and a bare host name. -/
theorem C6_normalization_witness :
    normalizeUrl (fun s => some s) " " = .error "Empty URL" ∧
    scan (fun s => some s) (fun _ _ => none) (fun _ => .fail "t" 1) " " = .error "Empty URL" ∧
    normalizeUrl (fun s => some s) " HTTP://A.com " = .ok "HTTP://A.com" ∧
    normalizeUrl (fun s => some s) " example.com " = .ok "https://example.com" := by
  have h1 := (C6_normalization (fun s => some s) " ").1 rfl
  have h2 := (C6_normalization (fun s => some s) " HTTP://A.com ").2.1 (by decide) rfl
  have h3 := (C6_normalization (fun s => some s) " example.com ").2.2 (by decide) rfl
  exact ⟨h1.1, h1.2 (fun _ _ => none) (fun _ => .fail "t" 1), h2, h3⟩

/-- Witness for C7 at a concrete probe whose HEAD and GET both time out. -/
theorem C7_transport_failure_in_band_witness :
    scan (fun s => some s) (fun _ _ => none) (fun _ => .fail "timeout" 8000) "a" =
      .ok { input := "https://a", verdict := "uncertain", score := 45, blockVendor := none,
            chain := [⟨"https://a", .HEAD, .err "timeout" 8000⟩,
                      ⟨"https://a", .GET, .err "timeout" 8000⟩] } :=
  C7_transport_failure_in_band (fun s => some s) (fun _ _ => none)
    (fun _ => .fail "timeout" 8000) "a" "https://a" "timeout" "timeout" 8000 8000 rfl rfl rfl

/-- Witness for C8 at a concrete probe that answers 302 with
`Location: /login` on every hop. -/
theorem C8_hop_limit_exhausted_witness :
    scan (fun s => some s) (fun _ b => some ("x" ++ b))
      (fun _ => .respond 302 (some "/login") none "" 5) "a" =
      .ok { input := "https://a", verdict := "likely_allowed", score := 80, blockVendor := none,
            chain :=
              [ ⟨"https://a", .HEAD, .ok ⟨302, 5, some "/login", "", ""⟩⟩
              , ⟨"xhttps://a", .HEAD, .ok ⟨302, 5, some "/login", "", ""⟩⟩
              , ⟨"xxhttps://a", .HEAD, .ok ⟨302, 5, some "/login", "", ""⟩⟩
              , ⟨"xxxhttps://a", .HEAD, .ok ⟨302, 5, some "/login", "", ""⟩⟩
              , ⟨"xxxxhttps://a", .HEAD, .ok ⟨302, 5, some "/login", "", ""⟩⟩
              , ⟨"xxxxxhttps://a", .HEAD, .ok ⟨302, 5, some "/login", "", ""⟩⟩ ] } :=
  C8_hop_limit_exhausted (fun s => some s) (fun _ b => some ("x" ++ b))
    (fun _ => .respond 302 (some "/login") none "" 5) "a"
    (fun k => ⟨List.replicate k 'x' ++ "https://a".data⟩)
    (fun _ => 302) (fun _ => 5) (fun _ => "/login") (fun _ => none) (fun _ => "")
    rfl (fun _ _ => rfl) (by decide) (fun _ _ => (by decide : ("/login" : String) ≠ "")) (fun _ _ => rfl)

/-- Witness for C9 at the innocuous snippet `See our Privacy Policy`. -/
theorem C9_generic_filter_policy_words_witness :
    detectBlock "See our Privacy Policy" = some "Generic filter page" ∧
    computeVerdict [⟨"https://x", .GET, .ok ⟨403, 7, none, "text/html", "See our Privacy Policy"⟩⟩] =
      ("likely_blocked", 90, some "Generic filter page") := by
  have h := C9_generic_filter_policy_words.2.2 "See our Privacy Policy" (Or.inr rfl) rfl
  exact ⟨h.1, h.2 _ rfl⟩

/-- Witness for C10 at a concrete probe whose single HEAD attempt succeeds
with status 200 and a Content-Type, so no GET is issued. -/
theorem C10_head_snippets_empty_witness :
    (∀ e ∈ ([⟨"https://a", .HEAD, .ok ⟨200, 3, none, "text/html", ""⟩⟩] : List ChainEntry),
        e.method = .HEAD → entrySnippet e = "") ∧
    (none : Option String) = none := by
  have h := C10_head_snippets_empty (fun s => some s) (fun _ _ => none)
      (fun _ => .respond 200 none (some "text/html") "b" 3) "a"
      { input := "https://a", verdict := "likely_allowed", score := 80, blockVendor := none,
        chain := [⟨"https://a", .HEAD, .ok ⟨200, 3, none, "text/html", ""⟩⟩] } rfl
  exact ⟨h.1, h.2 (by decide)⟩

end LinkScanner
